import Mathlib

/-!
Verification of the cancelgroup package (group.go).

The Go source is embedded as a state machine.  A `Group` value models the
mutable state of a `cancelgroup.Group`:

* `counter`     — the `sync.WaitGroup` counter (`wg.Add(1)` / `wg.Done()`);
* `ctxCause`    — the cause cell of the group's context `g.ctx`, created by
  `context.WithCancelCause(ctx)`.  Go latches the cause of the *first*
  cancellation of the context: a later `cancelCause(err)` call, and a later
  parent propagation, are no-ops.  `none` means the context is not canceled;
* `errOnceUsed` — the `sync.Once` guard `g.errOnce` used by `g.errored`;
* `waitResult`  — the `sync.OnceValue` memo cell behind `g.waitFunction`:
  `none` until the race in `wait(g)` has been evaluated, then `some r`
  forever, where `r` is the cached return value of `Wait`.

Errors (`error` values in Go) are modeled by `GoErr`:
`groupCanceled` is the sentinel `ErrorGroupCanceled`, `parentContextCanceled`
is the sentinel `ErrorParentContextCanceled`, `contextCanceled` is the
standard library's `context.Canceled` (the cause recorded when a parent is
canceled through a plain `context.CancelFunc`), and `taskErr n` ranges over
arbitrary distinct error values returned by tasks.

Concurrency is modeled by an event-trace semantics (`Event`, `applyEvent`,
`run`): an interleaving of scheduling calls, task completions, `Cancel`
calls and parent-context cancellations is a list of events applied to the
fresh group state.
-/

namespace Cancelgroup

/-- Error values that can reach the group's cause cell.  The two sentinels
come from group.go; `contextCanceled` models the standard
`context.Canceled` cause a parent context carries after a plain cancel;
`taskErr n` models arbitrary error values returned by tasks. -/
inductive GoErr where
  | groupCanceled
  | parentContextCanceled
  | contextCanceled
  | taskErr (n : Nat)
deriving DecidableEq, Repr

/-- The mutable state of a `cancelgroup.Group` (struct `Group` in group.go,
lines 49-56), together with the cause cell of the context it owns. -/
structure Group where
  counter : Nat
  ctxCause : Option GoErr
  errOnceUsed : Bool
  waitResult : Option (Option GoErr)
deriving DecidableEq, Repr

/-- Models Go's `context.CancelCauseFunc` for the context created by
`context.WithCancelCause` in `NewWithContext`: the first cancellation of the
context latches its cause; once the context is canceled, further calls do
not change the cause. -/
def cancelCause (g : Group) (e : GoErr) : Group :=
  match g.ctxCause with
  | some _ => g
  | none => { g with ctxCause := some e }

/-- Models `func (g *Group) errored(err error)`, which is
`g.errOnce.Do(run cancelCause with err)`; the `sync.Once` runs the body only
on its first invocation. -/
def errored (g : Group) (e : GoErr) : Group :=
  if g.errOnceUsed then g
  else { cancelCause g e with errOnceUsed := true }

/-- Models `func (g *Group) Cancel()`: `g.errored(ErrorGroupCanceled)`. -/
def Cancel (g : Group) : Group :=
  errored g .groupCanceled

/-- The shared prologue of `Group.Go` and `Group.Co`: `g.wg.Add(1)` before
spawning the task's goroutine.  `Go` (uncoordinated `Task`) and `Co`
(`CoordinatedTask`, which in addition receives `g.ctx`) mutate the group
state identically; they differ only in what is passed to the task body. -/
def schedule (g : Group) : Group :=
  { g with counter := g.counter + 1 }

/-- Models `func (g *Group) done()`: `g.wg.Done()`, decrementing the
counter. -/
def done (g : Group) : Group :=
  { g with counter := g.counter - 1 }

/-- Completion of a spawned task whose body returned `r` (`none` = nil
error, `some e` = error `e`).  Per the goroutine bodies in `Go` and `Co`,
a non-nil error is passed to `g.errored` first, then the deferred
`g.done()` decrements the counter. -/
def taskFinish (g : Group) (r : Option GoErr) : Group :=
  done (match r with
    | some e => errored g e
    | none => g)

/-- Models cancellation of the parent context with cause `c` propagating to
the derived context `g.ctx`: Go's context tree cancels the child with the
parent's cause, latching it if the child is not yet canceled.  The group's
`errOnce` is not involved in propagation. -/
def parentCancel (g : Group) (c : GoErr) : Group :=
  cancelCause g c

/-- Models `NewWithContext(ctx)`: zero `WaitGroup` counter, unused `errOnce`,
unevaluated `waitFunction` memo.  If the supplied parent context is already
canceled with cause `c`, `context.WithCancelCause` immediately cancels the
derived context with that cause, so construction takes the parent's cause
cell (`none` for a live parent) as argument. -/
def NewWithContext (parentCause : Option GoErr) : Group :=
  { counter := 0
    ctxCause := parentCause
    errOnceUsed := false
    waitResult := none }

/-- Models `New()`: `NewWithContext(context.Background())`;
`context.Background()` is never canceled. -/
def New : Group :=
  NewWithContext none

/-- The `select` in `func wait(g *Group) error` chooses the
`<-g.ctx.Done()` arm exactly when that channel is ready (`ctxCause` is
latched) and either the all-done channel `ch` is not ready
(`counter ≠ 0`) or the nondeterministic tie-break `pickCtx` favours it. -/
def selectCtxBranch (g : Group) (pickCtx : Bool) : Bool :=
  if g.ctxCause.isSome then
    if g.counter = 0 then pickCtx else true
  else false

/-- Models `func wait(g *Group) error`: race the all-done event (the helper
goroutine sends on `ch` once `g.wg.Wait()` returns, i.e. once the counter
is zero) against `<-g.ctx.Done()` (ready once a cause is latched).  The
`ctx.Done` arm runs `g.errored(ErrorParentContextCanceled)`; both arms then
return `context.Cause(g.ctx)`.  `none` as the overall result means neither
channel is ready yet and the select is still blocked; `pickCtx` resolves
the tie-break when both are ready.  The returned pair is
(`context.Cause(g.ctx)`, the state after the side effects of the arm). -/
def wait (g : Group) (pickCtx : Bool) : Option (Option GoErr × Group) :=
  if g.ctxCause.isSome ∨ g.counter = 0 then
    let g' := if selectCtxBranch g pickCtx then errored g .parentContextCanceled else g
    some (g'.ctxCause, g')
  else
    none

/-- Models `func (g *Group) Wait() error`: `g.waitFunction()`, the
`sync.OnceValue` closure over `wait(g)` built in `NewWithContext`.
If the memo is already filled the cached value is
returned without re-running the race; otherwise `wait` runs (blocking
while it returns `none`) and its value is stored. -/
def Wait (g : Group) (pickCtx : Bool) : Option (Option GoErr × Group) :=
  match g.waitResult with
  | some r => some (r, g)
  | none =>
    match wait g pickCtx with
    | none => none
    | some (r, g') => some (r, { g' with waitResult := some r })

/-- One externally visible mutation event on a group: scheduling a task
(`Go` or `Co`), completion of a running task with result `r`, a `Cancel()`
call, or cancellation of the parent context with cause `c`. -/
inductive Event where
  | schedule
  | finish (r : Option GoErr)
  | cancel
  | parentCancel (c : GoErr)
deriving DecidableEq, Repr

/-- Apply one event to the group state. -/
def applyEvent (g : Group) : Event → Group
  | .schedule => schedule g
  | .finish r => taskFinish g r
  | .cancel => Cancel g
  | .parentCancel c => parentCancel g c

/-- Run a trace of events (one interleaving) from a starting state. -/
def run (g : Group) : List Event → Group
  | [] => g
  | e :: es => run (applyEvent g e) es

/-- Number of `schedule` events in a trace. -/
def schedCount : List Event → Nat
  | [] => 0
  | .schedule :: es => schedCount es + 1
  | _ :: es => schedCount es

/-- Number of `finish` events in a trace. -/
def finishCount : List Event → Nat
  | [] => 0
  | .finish _ :: es => finishCount es + 1
  | _ :: es => finishCount es

/-! Helper lemmas. -/

theorem cancelCause_of_some {g : Group} {a : GoErr} (e : GoErr)
    (h : g.ctxCause = some a) : cancelCause g e = g := by
  unfold cancelCause
  rw [h]

theorem cancelCause_of_none {g : Group} (e : GoErr) (h : g.ctxCause = none) :
    cancelCause g e = { g with ctxCause := some e } := by
  unfold cancelCause
  rw [h]

theorem cancelCause_counter (g : Group) (e : GoErr) :
    (cancelCause g e).counter = g.counter := by
  unfold cancelCause
  cases h : g.ctxCause <;> rfl

theorem cancelCause_waitResult (g : Group) (e : GoErr) :
    (cancelCause g e).waitResult = g.waitResult := by
  unfold cancelCause
  cases h : g.ctxCause <;> rfl

theorem cancelCause_isSome (g : Group) (e : GoErr) :
    (cancelCause g e).ctxCause.isSome := by
  unfold cancelCause
  cases h : g.ctxCause <;> simp [h]

theorem errored_ctxCause_of_some {g : Group} {a : GoErr} (e : GoErr)
    (h : g.ctxCause = some a) : (errored g e).ctxCause = some a := by
  unfold errored
  by_cases ho : g.errOnceUsed <;> simp [ho, cancelCause_of_some e h, h]

theorem errored_counter (g : Group) (e : GoErr) :
    (errored g e).counter = g.counter := by
  unfold errored
  by_cases ho : g.errOnceUsed <;> simp [ho, cancelCause_counter]

theorem errored_waitResult (g : Group) (e : GoErr) :
    (errored g e).waitResult = g.waitResult := by
  unfold errored
  by_cases ho : g.errOnceUsed <;> simp [ho, cancelCause_waitResult]

theorem errored_fresh {g : Group} (e : GoErr) (h1 : g.errOnceUsed = false)
    (h2 : g.ctxCause = none) :
    errored g e = { g with ctxCause := some e, errOnceUsed := true } := by
  unfold errored
  rw [h1, cancelCause_of_none e h2]
  rfl

theorem applyEvent_ctxCause_of_some {g : Group} {a : GoErr} (ev : Event)
    (h : g.ctxCause = some a) : (applyEvent g ev).ctxCause = some a := by
  cases ev with
  | schedule => exact h
  | finish r =>
      cases r with
      | none => exact h
      | some e => exact errored_ctxCause_of_some e h
  | cancel => exact errored_ctxCause_of_some _ h
  | parentCancel c =>
      show (cancelCause g c).ctxCause = some a
      rw [cancelCause_of_some c h]
      exact h

theorem run_ctxCause_of_some {g : Group} {a : GoErr} (tr : List Event)
    (h : g.ctxCause = some a) : (run g tr).ctxCause = some a := by
  induction tr generalizing g with
  | nil => exact h
  | cons ev es ih => exact ih (applyEvent_ctxCause_of_some ev h)

theorem applyEvent_waitResult (g : Group) (ev : Event) :
    (applyEvent g ev).waitResult = g.waitResult := by
  cases ev with
  | schedule => rfl
  | finish r =>
      cases r with
      | none => rfl
      | some e => simp [applyEvent, taskFinish, done, errored_waitResult]
  | cancel => simp [applyEvent, Cancel, errored_waitResult]
  | parentCancel c => simp [applyEvent, parentCancel, cancelCause_waitResult]

theorem run_waitResult (g : Group) (tr : List Event) :
    (run g tr).waitResult = g.waitResult := by
  induction tr generalizing g with
  | nil => rfl
  | cons ev es ih => rw [run, ih, applyEvent_waitResult]

/-- The once-guard invariant: whenever `g.errOnce` has been consumed, a
cause is latched in the context (the only consumer, `errored`, latches a
cause in the same atomic step unless one is already latched). -/
def OnceInv (g : Group) : Prop :=
  g.errOnceUsed = true → g.ctxCause.isSome

theorem onceInv_applyEvent {g : Group} (ev : Event) (h : OnceInv g) :
    OnceInv (applyEvent g ev) := by
  cases ev with
  | schedule => exact h
  | finish r =>
      cases r with
      | none => exact h
      | some e =>
          intro ho
          show ((errored g e).ctxCause).isSome
          unfold errored
          by_cases hu : g.errOnceUsed
          · simp [hu, h hu]
          · simp [hu, cancelCause_isSome]
  | cancel =>
      intro ho
      show ((errored g .groupCanceled).ctxCause).isSome
      unfold errored
      by_cases hu : g.errOnceUsed
      · simp [hu, h hu]
      · simp [hu, cancelCause_isSome]
  | parentCancel c =>
      intro ho
      have : (cancelCause g c).ctxCause.isSome := cancelCause_isSome g c
      exact this

theorem onceInv_run {g : Group} (tr : List Event) (h : OnceInv g) :
    OnceInv (run g tr) := by
  induction tr generalizing g with
  | nil => exact h
  | cons ev es ih => exact ih (onceInv_applyEvent ev h)

theorem onceInv_newWithContext (pc : Option GoErr) :
    OnceInv (NewWithContext pc) := by
  intro h
  simp [NewWithContext] at h

/-- A successful, quiet trace contains only scheduling and error-free
completion events. -/
def SuccessOnly (tr : List Event) : Prop :=
  ∀ e ∈ tr, e = Event.schedule ∨ e = Event.finish none

theorem successOnly_ctxCause {g : Group} {tr : List Event}
    (hs : SuccessOnly tr) (h : g.ctxCause = none) :
    (run g tr).ctxCause = none := by
  induction tr generalizing g with
  | nil => exact h
  | cons ev es ih =>
      have hev := hs ev (List.mem_cons_self ev es)
      have hes : SuccessOnly es := fun e he => hs e (List.mem_cons_of_mem ev he)
      cases hev with
      | inl hsch => subst hsch; exact ih hes h
      | inr hfin => subst hfin; exact ih hes h

theorem successOnly_counter {g : Group} {tr : List Event}
    (hs : SuccessOnly tr)
    (hbal : ∀ p q, tr = p ++ q → finishCount p ≤ g.counter + schedCount p) :
    (run g tr).counter + finishCount tr = g.counter + schedCount tr := by
  induction tr generalizing g with
  | nil => simp [run, schedCount, finishCount]
  | cons ev es ih =>
      have hev := hs ev (List.mem_cons_self ev es)
      have hes : SuccessOnly es := fun e he => hs e (List.mem_cons_of_mem ev he)
      cases hev with
      | inl hsch =>
          subst hsch
          have hbal' : ∀ p q, es = p ++ q →
              finishCount p ≤ (schedule g).counter + schedCount p := by
            intro p q hpq
            have := hbal (Event.schedule :: p) q (by rw [hpq]; rfl)
            simp [finishCount, schedCount, schedule] at this ⊢
            omega
          have := ih hes hbal'
          simp only [run, applyEvent] at *
          simp [schedCount, finishCount, schedule] at *
          omega
      | inr hfin =>
          subst hfin
          have hpos : 1 ≤ g.counter := by
            have := hbal [Event.finish none] es rfl
            simpa [finishCount, schedCount] using this
          have hbal' : ∀ p q, es = p ++ q →
              finishCount p ≤ (taskFinish g none).counter + schedCount p := by
            intro p q hpq
            have := hbal (Event.finish none :: p) q (by rw [hpq]; rfl)
            simp [finishCount, schedCount, taskFinish, done] at this ⊢
            omega
          have := ih hes hbal'
          simp only [run, applyEvent] at *
          simp [schedCount, finishCount, taskFinish, done] at *
          omega

theorem wait_of_cause_some {g : Group} {a : GoErr} (pick : Bool)
    (h : g.ctxCause = some a) :
    (wait g pick).map Prod.fst = some (some a) := by
  unfold wait
  have hs : g.ctxCause.isSome := by rw [h]; rfl
  simp only [hs, true_or, if_true]
  by_cases hb : selectCtxBranch g pick
  · simp [hb, errored_ctxCause_of_some _ h]
  · simp [hb, h]

theorem wait_of_quiet_done {g : Group} (pick : Bool)
    (hc : g.ctxCause = none) (hz : g.counter = 0) :
    wait g pick = some (none, g) := by
  unfold wait selectCtxBranch
  simp [hc, hz]

theorem wait_blocked {g : Group} (pick : Bool)
    (hc : g.ctxCause = none) (hz : g.counter ≠ 0) :
    wait g pick = none := by
  unfold wait
  simp [hc, hz]

theorem Wait_of_cause_some {g : Group} {a : GoErr} (pick : Bool)
    (hw : g.waitResult = none) (h : g.ctxCause = some a) :
    (Wait g pick).map Prod.fst = some (some a) := by
  unfold Wait
  rw [hw]
  have := wait_of_cause_some pick h
  cases hwr : wait g pick with
  | none => rw [hwr] at this; simp at this
  | some p =>
      rw [hwr] at this
      cases p with
      | mk r g' =>
          simp at this
          simp [this]

/-! Claim theorems. -/

/-- C1: every pair of calls to Wait on a group returns the identical cause;
the race is evaluated at most once per group — after the first call has
produced a result, every later call returns the cached result, for every
tie-break oracle, without re-running the race or blocking. -/
theorem Wait_idempotent (g g1 : Group) (r : Option GoErr) (p1 p2 : Bool)
    (h : Wait g p1 = some (r, g1)) : Wait g1 p2 = some (r, g1) := by
  unfold Wait at h ⊢
  cases hm : g.waitResult with
  | some r0 =>
      rw [hm] at h
      simp only [Option.some.injEq, Prod.mk.injEq] at h
      obtain ⟨hr, hg⟩ := h
      subst hr
      subst hg
      rw [hm]
  | none =>
      rw [hm] at h
      cases hw : wait g p1 with
      | none => rw [hw] at h; simp at h
      | some p =>
          rw [hw] at h
          cases p with
          | mk r' g' =>
              simp only [Option.some.injEq, Prod.mk.injEq] at h
              obtain ⟨hr, hg⟩ := h
              subst hr
              subst hg
              rfl

/-- C1 witness: on a fresh group the first Wait resolves to nil with the
memo filled; a second Wait with the opposite tie-break returns the same
cached pair. -/
theorem Wait_idempotent_witness :
    Wait { counter := 0, ctxCause := none, errOnceUsed := false,
           waitResult := some none } false
      = some (none, { counter := 0, ctxCause := none, errOnceUsed := false,
                      waitResult := some none }) :=
  Wait_idempotent New
    { counter := 0, ctxCause := none, errOnceUsed := false,
      waitResult := some none }
    none true false (by decide)

/-- C2: at most one resolution cause is ever latched — once a cause is in
the context's cause cell, any further sequence of cause-setting events
(Cancel calls, task-reported errors, parent-signal propagation, and
completions) leaves the latched cause unchanged. -/
theorem cause_latched_first_writer_wins (g : Group) (a : GoErr)
    (tr : List Event) (h : g.ctxCause = some a) :
    (run g tr).ctxCause = some a :=
  run_ctxCause_of_some tr h

/-- C2 witness: a group that latched task error 1 keeps it across a Cancel,
a second task error, a parent cancellation and a successful completion. -/
theorem cause_latched_first_writer_wins_witness :
    (run { counter := 2, ctxCause := some (GoErr.taskErr 1),
           errOnceUsed := true, waitResult := none }
        [Event.cancel, Event.finish (some (GoErr.taskErr 2)),
         Event.parentCancel GoErr.contextCanceled, Event.finish none]).ctxCause
      = some (GoErr.taskErr 1) :=
  cause_latched_first_writer_wins _ _ _ (by decide)

/-- C3: on every reachable group, Cancel offers the explicit-cancel
sentinel to the latch: with no cause latched it latches
ErrorGroupCanceled and Wait then returns it; with a cause already latched
Cancel leaves the cause unchanged and Wait returns the earlier cause. -/
theorem Cancel_offers_explicit_sentinel (pc : Option GoErr) (tr : List Event)
    (g : Group) (pick : Bool) (hg : g = run (NewWithContext pc) tr) :
    (g.ctxCause = none →
        (Cancel g).ctxCause = some GoErr.groupCanceled ∧
        (Wait (Cancel g) pick).map Prod.fst = some (some GoErr.groupCanceled))
    ∧ (∀ a, g.ctxCause = some a →
        (Cancel g).ctxCause = some a ∧
        (Wait (Cancel g) pick).map Prod.fst = some (some a)) := by
  have hinv : OnceInv g := hg ▸ onceInv_run tr (onceInv_newWithContext pc)
  have hwr : g.waitResult = none := by
    rw [hg, run_waitResult]
    rfl
  constructor
  · intro hc
    have hu : g.errOnceUsed = false := by
      cases hb : g.errOnceUsed with
      | false => rfl
      | true => exact absurd (hinv hb) (by rw [hc]; simp)
    have hC : Cancel g
        = { g with ctxCause := some GoErr.groupCanceled, errOnceUsed := true } :=
      errored_fresh _ hu hc
    refine ⟨by rw [hC], ?_⟩
    refine Wait_of_cause_some pick ?_ (by rw [hC])
    rw [hC]
    exact hwr
  · intro a ha
    have hC : (Cancel g).ctxCause = some a := errored_ctxCause_of_some _ ha
    refine ⟨hC, ?_⟩
    refine Wait_of_cause_some pick ?_ hC
    show (errored g GoErr.groupCanceled).waitResult = none
    rw [errored_waitResult]
    exact hwr

/-- C3 witness: on a fresh group Cancel latches the sentinel and Wait
returns it; on a group whose first cause is task error 3, Cancel is a
no-op for the cause and Wait returns that earlier error. -/
theorem Cancel_offers_explicit_sentinel_witness :
    ((Cancel New).ctxCause = some GoErr.groupCanceled ∧
      (Wait (Cancel New) true).map Prod.fst = some (some GoErr.groupCanceled))
    ∧ ((Cancel (run New [Event.schedule,
          Event.finish (some (GoErr.taskErr 3))])).ctxCause
        = some (GoErr.taskErr 3) ∧
       (Wait (Cancel (run New [Event.schedule,
          Event.finish (some (GoErr.taskErr 3))])) true).map Prod.fst
        = some (some (GoErr.taskErr 3))) :=
  ⟨(Cancel_offers_explicit_sentinel none [] New true rfl).1 (by decide),
   (Cancel_offers_explicit_sentinel none
      [Event.schedule, Event.finish (some (GoErr.taskErr 3))] _ true rfl).2
      (GoErr.taskErr 3) (by decide)⟩

/-- C4: for a trace of N schedulings and N successful completions with no
Cancel and no parent cancellation (each prefix completing no more tasks
than were scheduled), Wait returns nil; and on every strict prefix on
which the outstanding counter is still positive, the race is not yet
decidable and wait blocks — Wait can return only after the counter has
been drained to zero. -/
theorem all_success_wait_returns_nil (n : Nat) (tr : List Event) (pick : Bool)
    (hs : SuccessOnly tr)
    (hbal : ∀ p ∈ tr.inits, finishCount p ≤ schedCount p)
    (hsched : schedCount tr = n) (hfin : finishCount tr = n) :
    (Wait (run New tr) pick).map Prod.fst = some none
    ∧ ∀ p q, tr = p ++ q → 0 < (run New p).counter →
        wait (run New p) pick = none := by
  have hc0 : (run New tr).ctxCause = none := successOnly_ctxCause hs rfl
  have hcnt : (run New tr).counter + finishCount tr
      = New.counter + schedCount tr := by
    apply successOnly_counter hs
    intro p q hpq
    have hp : p ∈ tr.inits := (List.mem_inits _ _).mpr ⟨q, hpq.symm⟩
    have := hbal p hp
    have h0 : New.counter = 0 := rfl
    omega
  have hz : (run New tr).counter = 0 := by
    have h0 : New.counter = 0 := rfl
    omega
  constructor
  · have hwr : (run New tr).waitResult = none := by
      rw [run_waitResult]
      rfl
    unfold Wait
    rw [hwr, wait_of_quiet_done pick hc0 hz]
    rfl
  · intro p q hpq hpos
    apply wait_blocked
    · apply successOnly_ctxCause _ rfl
      intro e he
      exact hs e (by rw [hpq]; exact List.mem_append_left q he)
    · omega

/-- C4 witness: two tasks scheduled and completed successfully give Wait
nil; after only the first scheduling the counter is 1 and wait blocks. -/
theorem all_success_wait_returns_nil_witness :
    (Wait (run New [Event.schedule, Event.schedule, Event.finish none,
        Event.finish none]) true).map Prod.fst = some none
    ∧ wait (run New [Event.schedule]) true = none :=
  ⟨(all_success_wait_returns_nil 2
      [Event.schedule, Event.schedule, Event.finish none, Event.finish none]
      true (by unfold SuccessOnly; decide) (by decide) (by decide)
      (by decide)).1,
   (all_success_wait_returns_nil 2
      [Event.schedule, Event.schedule, Event.finish none, Event.finish none]
      true (by unfold SuccessOnly; decide) (by decide) (by decide)
      (by decide)).2
      [Event.schedule] [Event.schedule, Event.finish none, Event.finish none]
      rfl (by decide)⟩

/-- C5: when a task's reported error is the first cause latched, that exact
error value is what Wait returns, and it survives any further events —
in particular a later second task error is silently discarded. -/
theorem first_task_error_returned_verbatim (g : Group) (e1 : GoErr)
    (tr : List Event) (pick : Bool) (hc : g.ctxCause = none)
    (hu : g.errOnceUsed = false) (hw : g.waitResult = none) :
    (run (taskFinish g (some e1)) tr).ctxCause = some e1
    ∧ (Wait (run (taskFinish g (some e1)) tr) pick).map Prod.fst
        = some (some e1) := by
  have h1 : (taskFinish g (some e1)).ctxCause = some e1 := by
    show (done (errored g e1)).ctxCause = some e1
    rw [errored_fresh e1 hu hc]
    rfl
  have h2 : (run (taskFinish g (some e1)) tr).ctxCause = some e1 :=
    run_ctxCause_of_some tr h1
  refine ⟨h2, Wait_of_cause_some pick ?_ h2⟩
  rw [run_waitResult]
  show (errored g e1).waitResult = none
  rw [errored_waitResult]
  exact hw

/-- C5 witness: with two tasks outstanding, the first reports task error 1
and latches it; the second reports task error 2, which is discarded, and
Wait returns exactly task error 1. -/
theorem first_task_error_returned_verbatim_witness :
    (run (taskFinish (run New [Event.schedule, Event.schedule])
        (some (GoErr.taskErr 1))) [Event.finish (some (GoErr.taskErr 2))]).ctxCause
      = some (GoErr.taskErr 1)
    ∧ (Wait (run (taskFinish (run New [Event.schedule, Event.schedule])
        (some (GoErr.taskErr 1))) [Event.finish (some (GoErr.taskErr 2))])
        true).map Prod.fst = some (some (GoErr.taskErr 1)) :=
  first_task_error_returned_verbatim _ _ _ true (by decide) (by decide)
    (by decide)

/-- C6: evaluation at the failing input of the parent-cancellation claim.
When the parent context is canceled through a plain CancelFunc, the cause
propagated into the group's context is the standard canceled cause; Wait
returns that propagated cause under either tie-break, and it is not the
ErrorParentContextCanceled sentinel — the sentinel write attempted on the
ctx-done arm of wait cannot overwrite the already-latched cause. -/
theorem parent_cancel_cause_supersedes_sentinel :
    (Wait (parentCancel New GoErr.contextCanceled) true).map Prod.fst
        = some (some GoErr.contextCanceled)
    ∧ (Wait (parentCancel New GoErr.contextCanceled) false).map Prod.fst
        = some (some GoErr.contextCanceled)
    ∧ GoErr.contextCanceled ≠ GoErr.parentContextCanceled :=
  ⟨by decide, by decide, by decide⟩

/-- C7: if a cause is latched while the outstanding counter is still
positive, the all-done arm of the select is not ready, the select takes
the cancellation arm, and Wait returns the latched cause — without
waiting for the outstanding tasks to finish. -/
theorem cancellation_wins_returns_without_draining (g : Group) (a : GoErr)
    (pick : Bool) (hc : g.ctxCause = some a) (hn : 0 < g.counter)
    (hw : g.waitResult = none) :
    (Wait g pick).map Prod.fst = some (some a)
    ∧ selectCtxBranch g pick = true := by
  refine ⟨Wait_of_cause_some pick hw hc, ?_⟩
  unfold selectCtxBranch
  rw [hc]
  have hne : g.counter ≠ 0 := Nat.pos_iff_ne_zero.mp hn
  simp [hne]

/-- C7 witness: one task scheduled, then Cancel; the counter is still 1,
the cancellation arm is taken and Wait returns the explicit-cancel
sentinel. -/
theorem cancellation_wins_returns_without_draining_witness :
    (Wait (run New [Event.schedule, Event.cancel]) true).map Prod.fst
        = some (some GoErr.groupCanceled)
    ∧ selectCtxBranch (run New [Event.schedule, Event.cancel]) true = true :=
  cancellation_wins_returns_without_draining _ _ true (by decide) (by decide)
    (by decide)

/-- C8 counterexample: for a group built over a parent already canceled
with the standard canceled cause, before any work is scheduled, Wait
terminates under both tie-breaks but returns that propagated cause, not
the ErrorParentContextCanceled sentinel the taxonomy designates for
parent cancellation. -/
theorem wait_preCanceled_parent_counterexample :
    (Wait (NewWithContext (some GoErr.contextCanceled)) true).map Prod.fst
        = some (some GoErr.contextCanceled)
    ∧ (Wait (NewWithContext (some GoErr.contextCanceled)) false).map Prod.fst
        = some (some GoErr.contextCanceled)
    ∧ (Wait (NewWithContext (some GoErr.contextCanceled)) true).map Prod.fst
        ≠ some (some GoErr.parentContextCanceled) :=
  ⟨by decide, by decide, by decide⟩

/-- C8 (amended): for a group whose parent was canceled with cause c
before any work was scheduled, both race arms are ready and Wait
terminates promptly under either tie-break, returning the cause c that
the parent propagated into the group's context. -/
theorem wait_preCanceled_parent_returns_parent_cause (c : GoErr)
    (pick : Bool) :
    (Wait (NewWithContext (some c)) pick).map Prod.fst = some (some c) :=
  Wait_of_cause_some pick rfl rfl

/-- C9: Wait is a total function of the group state — it never evaluates
to a panic or abort, and it yields a result exactly when the group is
resolved: the memo is already filled (so a repeat call never blocks past
resolution), or a cause is latched, or the counter has drained to zero. -/
theorem Wait_returns_iff_resolved (g : Group) (pick : Bool) :
    (Wait g pick).isSome
      ↔ (g.waitResult.isSome ∨ g.ctxCause.isSome ∨ g.counter = 0) := by
  unfold Wait
  cases hm : g.waitResult with
  | some r => simp
  | none =>
      unfold wait
      by_cases hr : g.ctxCause.isSome ∨ g.counter = 0
      · simp [hr]
      · simp [hr]

/-- C9 witness: a fresh group with a zero counter is resolved, and Wait
on it indeed returns. -/
theorem Wait_returns_iff_resolved_witness : (Wait New true).isSome :=
  (Wait_returns_iff_resolved New true).mpr (Or.inr (Or.inr rfl))

/-- C10: on a fresh group with no work scheduled, no Cancel and a live
parent, the counter is zero, only the all-done arm is ready, and Wait
returns nil at once, caching the nil result. -/
theorem empty_group_wait_returns_nil (pick : Bool) :
    Wait New pick = some (none, { New with waitResult := some none }) := by
  cases pick <;> rfl

end Cancelgroup
